import Mathlib

/-!
Verification of the Open-MCP-Manager aggregation router.

The development shallowly embeds the router code (`src/lib/mcp-router.ts`),
the server-record normalization (`src/app/actions.ts`) and the session
registry routes (`src/app/api/mcp/message/route.ts` and the SSE GET route)
as executable Lean definitions, and proves properties of the embedding.

Strings are modelled as `List Char`; JavaScript string operations
(`split`, `join`, `replace`, regex replaces) are embedded as recursive
functions with the same semantics.
-/

abbrev Str := List Char

/-! ## Namespacing codec (mcp-router.ts lines 84-88, 99-100, 179-180)

The encoder builds a namespaced name with a template literal
`` s.name ++ "__" ++ tool.name ``.  The decoder does
`name.split("__")` and rejoins all but the first piece with
`parts.join("__")`.  `splitSep` is JavaScript `split` specialized to the
fixed two-character separator `"__"`: it scans left to right and breaks
at every non-overlapping occurrence of the separator. -/

/-- JavaScript `name.split("__")`: left-to-right, non-overlapping. -/
def splitSep : Str → List Str
  | '_' :: '_' :: rest => [] :: splitSep rest
  | c :: rest =>
    match splitSep rest with
    | [] => [[c]]
    | p :: ps => (c :: p) :: ps
  | [] => [[]]

/-- JavaScript `parts.join("__")`. -/
def joinSep : List Str → Str
  | [] => []
  | [p] => p
  | p :: ps => p ++ '_' :: '_' :: joinSep ps

/-- Encoder from the ListTools handler: `` `${s.name}__${tool.name}` ``. -/
def encodeToolName (s l : Str) : Str := s ++ '_' :: '_' :: l

/-- Decoder from the CallTool handler:
`const [serverName, ...toolNameParts] = request.params.name.split("__");
const toolName = toolNameParts.join("__");`. -/
def decodeToolName (name : Str) : Str × Str :=
  match splitSep name with
  | [] => ([], [])
  | sn :: rest => (sn, joinSep rest)

/-- Whether a string contains the separator `"__"` as a substring. -/
def containsSep : Str → Bool
  | '_' :: '_' :: _ => true
  | _ :: rest => containsSep rest
  | [] => false

/-- A server name is safe for the codec when it contains no `"__"` and
does not end in `'_'` (otherwise the trailing underscore merges with the
separator and the first occurrence of `"__"` moves left). -/
def sepSafe : Str → Bool
  | [] => true
  | ['_'] => false
  | '_' :: '_' :: _ => false
  | _ :: rest => sepSafe rest

/-! ## Data model (types.ts) -/

/-- `type: 'stdio' | 'sse'` in `McpServer` (types.ts). -/
inductive TransportKind where
  | stdio
  | sse
deriving DecidableEq, Repr

/-- The `McpServer` interface of types.ts (a row of the `mcp_servers` table). -/
structure McpServer where
  id : Str
  name : Str
  type : TransportKind
  command : Option Str
  args : List Str
  url : Option Str
  env : List (Str × Str)
  description : Option Str
  is_active : Bool
  created_at : Str
  updated_at : Str
deriving DecidableEq, Repr

/-! ## Association-list maps

`McpRouter.childClients` is a JavaScript `Map<string, Client>` and the
session registry is a `Map<string, SSEServerTransport>`; both are embedded
as association lists with `Map.get` / `Map.set` / `Map.delete`. -/

/-- `Map.get` (also `Map.has` via `Option.isSome`). -/
def alookup {B : Type} (k : Str) : List (Str × B) → Option B
  | [] => none
  | (k', v) :: rest => if k' = k then some v else alookup k rest

/-- `Map.set`: overwrite an existing key in place, else append. -/
def aset {B : Type} (k : Str) (v : B) : List (Str × B) → List (Str × B)
  | [] => [(k, v)]
  | (k', v') :: rest => if k' = k then (k, v) :: rest else (k', v') :: aset k v rest

/-- `Map.delete`. -/
def adelete {B : Type} (k : Str) (l : List (Str × B)) : List (Str × B) :=
  l.filter (fun p => ¬ p.1 = k)

/-! ## Upstream Connection Manager (mcp-router.ts lines 48-72)

`getChildClient` takes the connection cache through explicit state.  The
construction of the transport (stdio spawn or SSE) plus
`client.connect(transport)` is abstracted as a `connect` oracle
`McpServer → Except E C`, where `C` is the type of connected clients and
`E` the type of connection failures; a rejected promise is an
`Except.error`.  `handshakes` instruments the number of connect attempts
(the "shared counter of handshake attempts" of spec section 8); it is not
part of the source state. -/

structure RouterState (C : Type) where
  childClients : List (Str × C)
  handshakes : Nat
deriving DecidableEq, Repr

/-- `getChildClient`: return the cached client for `s.id` if present, else
construct and connect a new one and cache it under `s.id`.  A connection
failure propagates and nothing is cached. -/
def getChildClient {C E : Type} (connect : McpServer → Except E C)
    (st : RouterState C) (s : McpServer) : Except E C × RouterState C :=
  match alookup s.id st.childClients with
  | some c => (Except.ok c, st)
  | none =>
    match connect s with
    | Except.error e =>
        (Except.error e, { st with handshakes := st.handshakes + 1 })
    | Except.ok c =>
        (Except.ok c,
          { childClients := aset s.id c st.childClients,
            handshakes := st.handshakes + 1 })

/-- `getActiveServers` (mcp-router.ts lines 38-46): the store query
`from("mcp_servers").select("*").eq("is_active", true)`, whose result is
either an error (thrown) or the rows with `is_active` true. -/
def getActiveServers {S : Type} (store : Except S (List McpServer)) :
    Except S (List McpServer) :=
  match store with
  | Except.error e => Except.error e
  | Except.ok rows => Except.ok (rows.filter (fun r => r.is_active))

/-! ## Capability items and namespacing

Upstream items carry further fields (input schemas, mime types, ...) that
the handlers spread through unchanged; only the fields the router rewrites
(`name`, `description`, `uri`) are modelled. -/

structure Tool where
  name : Str
  description : Str
deriving DecidableEq, Repr

structure ResourceItem where
  uri : Str
  name : Str
deriving DecidableEq, Repr

structure Prompt where
  name : Str
  description : Str
deriving DecidableEq, Repr

/-- Display description prefix `` `[${s.name}] ${description}` ``. -/
def displayDescription (sname d : Str) : Str :=
  '[' :: sname ++ ']' :: ' ' :: d

/-- ListTools handler, per-item rewrite (mcp-router.ts lines 84-88). -/
def namespaceTool (sname : Str) (t : Tool) : Tool :=
  { name := encodeToolName sname t.name,
    description := displayDescription sname t.description }

/-- Encoder from the ListResources handler:
`` `mcp://${s.name}/${resource.uri}` `` (mcp-router.ts line 127). -/
def encodeResourceURI (sname u : Str) : Str :=
  "mcp://".toList ++ sname ++ '/' :: u

/-- ListResources handler, per-item rewrite (mcp-router.ts lines 125-129). -/
def namespaceResource (sname : Str) (r : ResourceItem) : ResourceItem :=
  { uri := encodeResourceURI sname r.uri,
    name := displayDescription sname r.name }

/-- ListPrompts handler, per-item rewrite (mcp-router.ts lines 164-168). -/
def namespacePrompt (sname : Str) (p : Prompt) : Prompt :=
  { name := encodeToolName sname p.name,
    description := displayDescription sname p.description }

/-! ## URL host extraction (ReadResource handler, mcp-router.ts lines 140-142)

`new URL(request.params.uri)` followed by `url.host`.  The WHATWG parser is
modelled for non-special schemes such as `mcp:`: the scheme is an ASCII
letter followed by letters, digits, `+`, `-` or `.`, terminated by `:`; a
string without a valid scheme makes the constructor throw (`none` here).
After `://` the authority runs to the first `/`, `?` or `#`; the host is
the part of the authority after the last `@` (userinfo).  Opaque hosts of
non-special schemes are not lowercased.  Port validation and
percent-encoding of exotic host characters are not modelled; theorems
that rely on the host quantify only over characters the real parser
preserves verbatim. -/

def validSchemeChar (c : Char) : Bool :=
  c.isAlphanum || c = '+' || c = '-' || c = '.'

def validScheme : Str → Bool
  | [] => false
  | c :: rest => c.isAlpha && rest.all validSchemeChar

def authorityEndChar (c : Char) : Bool :=
  c = '/' || c = '?' || c = '#'

/-- The part of the authority after the last `@` (the whole authority when
there is no userinfo). -/
def afterLastAt (auth : Str) : Str :=
  (auth.reverse.takeWhile (fun c => c ≠ '@')).reverse

/-- `new URL(uri).host`, `none` when the constructor throws. -/
def parseURLHost (uri : Str) : Option Str :=
  let scheme := uri.takeWhile (fun c => c ≠ ':')
  if validScheme scheme then
    match uri.drop scheme.length with
    | ':' :: r =>
      if r.take 2 = ['/', '/'] then
        some (afterLastAt ((r.drop 2).takeWhile (fun c => !authorityEndChar c)))
      else
        some []
    | _ => none
  else none

/-- JavaScript `uri.replace(pat, "")` with a plain-string pattern: remove
the first occurrence of `pat`, return the string unchanged when `pat` does
not occur. -/
def replaceFirst (pat : Str) : Str → Str
  | [] => []
  | c :: rest =>
    if pat.isPrefixOf (c :: rest) then (c :: rest).drop pat.length
    else c :: replaceFirst pat rest

/-- Decoder from the ReadResource handler (mcp-router.ts lines 140-142):
`const serverName = url.host;
const childUri = request.params.uri.replace(`mcp://${serverName}/`, "");`
`none` when `new URL` throws. -/
def decodeResourceURI (uri : Str) : Option (Str × Str) :=
  match parseURLHost uri with
  | none => none
  | some sn => some (sn, replaceFirst ("mcp://".toList ++ sn ++ ['/']) uri)

/-- Characters the URL authority parser passes through verbatim into
`url.host` for a non-special scheme: the unreserved URL characters.  They
are not authority delimiters, not forbidden host code points, and opaque
hosts (non-special schemes such as `mcp:`) are not lowercased. -/
def hostSafeChar (c : Char) : Bool :=
  c.isAlphanum || c = '-' || c = '_' || c = '.' || c = '~'

/-! ## Request handlers (mcp-router.ts, setupHandlers)

Each handler is a function of the store snapshot, the connect oracle, the
per-server upstream responses, the connection-cache state and the request
parameters.  Upstream responses are modelled as functions of the target
server definition: a cached and a freshly connected client reach the same
upstream.  Thrown values are the error side of `Except`, tagged by origin:
a `storeError` is the re-thrown supabase error, a `definitionError` is a
`new Error(...)` from the handler itself (carrying its message), a
`uriParseError` is the `TypeError` thrown by `new URL`, and
`connectError` / `upstreamError` are rejections of `client.connect` /
`client.request` that the handler lets propagate. -/

inductive RouterError (S E U : Type) where
  | storeError (e : S)
  | definitionError (msg : Str)
  | uriParseError
  | connectError (e : E)
  | upstreamError (e : U)
deriving DecidableEq, Repr

/-- The loop body of the ListTools handler (lines 80-93): for each active
server, try to connect and fetch, re-namespace on success, skip the server
on any caught error. -/
def listToolsLoop {C E U : Type} (connect : McpServer → Except E C)
    (listToolsUp : McpServer → Except U (List Tool)) :
    List McpServer → RouterState C → List Tool × RouterState C
  | [], st => ([], st)
  | s :: rest, st =>
    match getChildClient connect st s with
    | (Except.error _, st') => listToolsLoop connect listToolsUp rest st'
    | (Except.ok _, st') =>
      match listToolsUp s with
      | Except.error _ => listToolsLoop connect listToolsUp rest st'
      | Except.ok ts =>
        let r := listToolsLoop connect listToolsUp rest st'
        (ts.map (namespaceTool s.name) ++ r.1, r.2)

/-- ListTools handler (lines 76-96). -/
def listToolsHandler {C S E U : Type} (store : Except S (List McpServer))
    (connect : McpServer → Except E C)
    (listToolsUp : McpServer → Except U (List Tool))
    (st : RouterState C) :
    Except (RouterError S E U) (List Tool) × RouterState C :=
  match getActiveServers store with
  | Except.error e => (Except.error (RouterError.storeError e), st)
  | Except.ok active =>
    let r := listToolsLoop connect listToolsUp active st
    (Except.ok r.1, r.2)

/-- The loop body of the ListResources handler (lines 121-134). -/
def listResourcesLoop {C E U : Type} (connect : McpServer → Except E C)
    (listResourcesUp : McpServer → Except U (List ResourceItem)) :
    List McpServer → RouterState C → List ResourceItem × RouterState C
  | [], st => ([], st)
  | s :: rest, st =>
    match getChildClient connect st s with
    | (Except.error _, st') => listResourcesLoop connect listResourcesUp rest st'
    | (Except.ok _, st') =>
      match listResourcesUp s with
      | Except.error _ => listResourcesLoop connect listResourcesUp rest st'
      | Except.ok rs =>
        let r := listResourcesLoop connect listResourcesUp rest st'
        (rs.map (namespaceResource s.name) ++ r.1, r.2)

/-- ListResources handler (lines 117-137). -/
def listResourcesHandler {C S E U : Type} (store : Except S (List McpServer))
    (connect : McpServer → Except E C)
    (listResourcesUp : McpServer → Except U (List ResourceItem))
    (st : RouterState C) :
    Except (RouterError S E U) (List ResourceItem) × RouterState C :=
  match getActiveServers store with
  | Except.error e => (Except.error (RouterError.storeError e), st)
  | Except.ok active =>
    let r := listResourcesLoop connect listResourcesUp active st
    (Except.ok r.1, r.2)

/-- The loop body of the ListPrompts handler (lines 160-173). -/
def listPromptsLoop {C E U : Type} (connect : McpServer → Except E C)
    (listPromptsUp : McpServer → Except U (List Prompt)) :
    List McpServer → RouterState C → List Prompt × RouterState C
  | [], st => ([], st)
  | s :: rest, st =>
    match getChildClient connect st s with
    | (Except.error _, st') => listPromptsLoop connect listPromptsUp rest st'
    | (Except.ok _, st') =>
      match listPromptsUp s with
      | Except.error _ => listPromptsLoop connect listPromptsUp rest st'
      | Except.ok ps =>
        let r := listPromptsLoop connect listPromptsUp rest st'
        (ps.map (namespacePrompt s.name) ++ r.1, r.2)

/-- ListPrompts handler (lines 156-176). -/
def listPromptsHandler {C S E U : Type} (store : Except S (List McpServer))
    (connect : McpServer → Except E C)
    (listPromptsUp : McpServer → Except U (List Prompt))
    (st : RouterState C) :
    Except (RouterError S E U) (List Prompt) × RouterState C :=
  match getActiveServers store with
  | Except.error e => (Except.error (RouterError.storeError e), st)
  | Except.ok active =>
    let r := listPromptsLoop connect listPromptsUp active st
    (Except.ok r.1, r.2)

/-- CallTool handler (lines 98-114).  `A` is the opaque `arguments`
payload, `R` the opaque upstream response. -/
def callToolHandler {C S E U A R : Type} (store : Except S (List McpServer))
    (connect : McpServer → Except E C)
    (callToolUp : McpServer → Str → A → Except U R)
    (st : RouterState C) (name : Str) (args : A) :
    Except (RouterError S E U) R × RouterState C :=
  let dec := decodeToolName name
  match getActiveServers store with
  | Except.error e => (Except.error (RouterError.storeError e), st)
  | Except.ok active =>
    match active.find? (fun s => s.name = dec.1) with
    | none =>
        (Except.error (RouterError.definitionError
          ("Server ".toList ++ dec.1 ++ " not found or inactive".toList)), st)
    | some target =>
      match getChildClient connect st target with
      | (Except.error e, st') => (Except.error (RouterError.connectError e), st')
      | (Except.ok _, st') =>
        match callToolUp target dec.2 args with
        | Except.error e => (Except.error (RouterError.upstreamError e), st')
        | Except.ok r => (Except.ok r, st')

/-- GetPrompt handler (lines 178-192); identical decode scheme to
CallTool, error message `"Server <name> not found"`. -/
def getPromptHandler {C S E U A R : Type} (store : Except S (List McpServer))
    (connect : McpServer → Except E C)
    (getPromptUp : McpServer → Str → A → Except U R)
    (st : RouterState C) (name : Str) (args : A) :
    Except (RouterError S E U) R × RouterState C :=
  let dec := decodeToolName name
  match getActiveServers store with
  | Except.error e => (Except.error (RouterError.storeError e), st)
  | Except.ok active =>
    match active.find? (fun s => s.name = dec.1) with
    | none =>
        (Except.error (RouterError.definitionError
          ("Server ".toList ++ dec.1 ++ " not found".toList)), st)
    | some target =>
      match getChildClient connect st target with
      | (Except.error e, st') => (Except.error (RouterError.connectError e), st')
      | (Except.ok _, st') =>
        match getPromptUp target dec.2 args with
        | Except.error e => (Except.error (RouterError.upstreamError e), st')
        | Except.ok r => (Except.ok r, st')

/-- ReadResource handler (lines 139-153): `new URL` first (outside any
try), then the store lookup, then connect and forward. -/
def readResourceHandler {C S E U R : Type} (store : Except S (List McpServer))
    (connect : McpServer → Except E C)
    (readResourceUp : McpServer → Str → Except U R)
    (st : RouterState C) (uri : Str) :
    Except (RouterError S E U) R × RouterState C :=
  match parseURLHost uri with
  | none => (Except.error RouterError.uriParseError, st)
  | some serverName =>
    let childUri := replaceFirst ("mcp://".toList ++ serverName ++ ['/']) uri
    match getActiveServers store with
    | Except.error e => (Except.error (RouterError.storeError e), st)
    | Except.ok active =>
      match active.find? (fun s => s.name = serverName) with
      | none =>
          (Except.error (RouterError.definitionError
            ("Server ".toList ++ serverName ++ " not found".toList)), st)
      | some target =>
        match getChildClient connect st target with
        | (Except.error e, st') => (Except.error (RouterError.connectError e), st')
        | (Except.ok _, st') =>
          match readResourceUp target childUri with
          | Except.error e => (Except.error (RouterError.upstreamError e), st')
          | Except.ok r => (Except.ok r, st')

/-! ## Server-name normalization (actions.ts lines 7-17, 29-60)

`slugify` is the chain: `toString`, NFD normalization, strip of the
combining-mark range U+0300 to U+036F, `toLowerCase`, `trim`, replace of
every whitespace run by one hyphen, removal of every character outside
the word class and hyphen, and collapse of hyphen runs to one hyphen.
NFD normalization is modelled as the identity (exact on ASCII, where no
decomposition applies); `toLowerCase` is modelled on ASCII via
`Char.toLower`.  The remaining steps are embedded exactly. -/

/-- The JavaScript `\s` class (also used by `trim`). -/
def isJsWhitespace (c : Char) : Bool :=
  c = ' ' || c = '\t' || c = '\n' || c = '\r' ||
  c.toNat = 0xb || c.toNat = 0xc || c.toNat = 0xa0 || c.toNat = 0x1680 ||
  (0x2000 ≤ c.toNat && c.toNat ≤ 0x200a) || c.toNat = 0x2028 ||
  c.toNat = 0x2029 || c.toNat = 0x202f || c.toNat = 0x205f ||
  c.toNat = 0x3000 || c.toNat = 0xfeff

/-- The JavaScript `\w` class: `[A-Za-z0-9_]`. -/
def isWordChar (c : Char) : Bool :=
  c.isAlphanum || c = '_'

/-- `.trim()`. -/
def jsTrim (s : Str) : Str :=
  ((s.dropWhile isJsWhitespace).reverse.dropWhile isJsWhitespace).reverse

/-- The replace of each maximal whitespace run by one `'-'`. -/
def collapseWsToHyphen : Str → Str
  | [] => []
  | [c] => if isJsWhitespace c then ['-'] else [c]
  | c :: d :: rest =>
    if isJsWhitespace c then
      if isJsWhitespace d then collapseWsToHyphen (d :: rest)
      else '-' :: collapseWsToHyphen (d :: rest)
    else c :: collapseWsToHyphen (d :: rest)

/-- The removal step: drop every character that is neither a
word character nor a hyphen. -/
def removeNonWord (s : Str) : Str :=
  s.filter (fun c => isWordChar c || c = '-')

/-- The hyphen-collapse step: each maximal run of two or more hyphens
becomes one `'-'` (a lone hyphen is already a run of one). -/
def collapseHyphens : Str → Str
  | [] => []
  | [c] => [c]
  | c :: d :: rest =>
    if c = '-' && d = '-' then collapseHyphens (d :: rest)
    else c :: collapseHyphens (d :: rest)

/-- `slugify` (actions.ts lines 7-17). -/
def slugify (s : Str) : Str :=
  collapseHyphens
    (removeNonWord
      (collapseWsToHyphen
        (jsTrim
          ((s.filter
              (fun c => !(0x300 ≤ c.toNat && c.toNat ≤ 0x36f))).map Char.toLower))))

/-- The name persisted by `createServer` / `updateServer` (actions.ts
lines 29-60): `if (server.name) server.name = slugify(server.name)` — a
non-empty name is slugified, an empty (falsy) one is left untouched. -/
def storedServerName (name : Str) : Str :=
  if name = [] then name else slugify name

/-! ## Session registry

The GET route (SSE session open) and POST /api/mcp/message share the
process-wide `transports` map (module `mcp-transports`, not under `src/`;
its declaration is a `Map<string, SSEServerTransport>` judging by its
uses).  `T` is the opaque transport type. -/

/-- The GET route: `transports.set(sessionId, transport)`. -/
def openSession {T : Type} (reg : List (Str × T)) (sid : Str) (t : T) :
    List (Str × T) :=
  aset sid t reg

/-- Modelled from the spec: the stream-close handler is not part of
`src/` (the `mcp-transports` module and its close wiring are absent); per
spec section 4.4, when a session's stream closes "the Session Registry
entry is removed". -/
def closeSession {T : Type} (reg : List (Str × T)) (sid : Str) :
    List (Str × T) :=
  adelete sid reg

/-- Status classes returned by POST /api/mcp/message. -/
inductive PostResponse where
  | missingSessionId
  | sessionNotFound
  | accepted
deriving DecidableEq, Repr

/-- POST /api/mcp/message (route.ts lines 4-19): 400 without a
`sessionId` query parameter, 404 when the registry has no entry for it,
202 after forwarding to the transport. -/
def postMessage {T : Type} (reg : List (Str × T)) (sessionId : Option Str) :
    PostResponse :=
  match sessionId with
  | none => PostResponse.missingSessionId
  | some sid =>
    match alookup sid reg with
    | none => PostResponse.sessionNotFound
    | some _ => PostResponse.accepted

/-! ## Spec-side aggregate for the partial-result policy -/

/-- Follows the spec's partial-result policy (sections 4.3, 7 and 8): the
contribution of one upstream to the aggregate is its re-namespaced items
when connecting and listing both succeed, and nothing when either fails. -/
def upstreamToolsResult {C E U : Type} (connect : McpServer → Except E C)
    (listToolsUp : McpServer → Except U (List Tool)) (s : McpServer) :
    List Tool :=
  match connect s with
  | Except.error _ => []
  | Except.ok _ =>
    match listToolsUp s with
    | Except.error _ => []
    | Except.ok ts => ts.map (namespaceTool s.name)

/-! ## Concrete fixtures used by witnesses and counterexamples -/

/-- A sample enabled stdio server definition named `serverA`. -/
def sampleServer : McpServer :=
  { id := "id-1".toList, name := "serverA".toList, type := TransportKind.stdio,
    command := some "npx".toList, args := ["serve".toList], url := none,
    env := [], description := none, is_active := true,
    created_at := [], updated_at := [] }

/-- A sample enabled SSE server definition named `serverB`. -/
def sampleServerB : McpServer :=
  { id := "id-2".toList, name := "serverB".toList, type := TransportKind.sse,
    command := none, args := [], url := some "http://localhost:9/sse".toList,
    env := [], description := none, is_active := true,
    created_at := [], updated_at := [] }

/-- A sample disabled server definition named `serverX`. -/
def sampleServerX : McpServer :=
  { id := "id-3".toList, name := "serverX".toList, type := TransportKind.stdio,
    command := some "npx".toList, args := [], url := none,
    env := [], description := none, is_active := false,
    created_at := [], updated_at := [] }

/-! # General lemmas about the embedded operations -/

theorem splitSep_ne_nil (t : Str) : splitSep t ≠ [] := by
  induction t using splitSep.induct with
  | _ => simp_all [splitSep]

theorem joinSep_cons_cons (c : Char) (p : Str) (ps : List Str) :
    joinSep ((c :: p) :: ps) = c :: joinSep (p :: ps) := by
  cases ps <;> rfl

/-- `split` followed by `join` on the same separator is the identity. -/
theorem joinSep_splitSep (t : Str) : joinSep (splitSep t) = t := by
  induction t using splitSep.induct with
  | case1 rest ih =>
    rw [splitSep.eq_1]
    cases hs : splitSep rest with
    | nil => exact absurd hs (splitSep_ne_nil rest)
    | cons p ps =>
      rw [hs] at ih
      have hj : joinSep ([] :: p :: ps) = '_' :: '_' :: joinSep (p :: ps) := rfl
      rw [hj, ih]
  | case2 c rest hne hnil ih => exact absurd hnil (splitSep_ne_nil rest)
  | case3 c rest hne p ps hs ih =>
    rw [hs] at ih
    rw [splitSep.eq_2 c rest hne, hs, joinSep_cons_cons, ih]
  | case4 => rfl

/-- Splitting a `sepSafe` prefix followed by the separator cuts exactly at
that separator. -/
theorem splitSep_boundary (s l : Str) (h : sepSafe s = true) :
    splitSep (s ++ '_' :: '_' :: l) = s :: splitSep l := by
  induction s with
  | nil => simp [splitSep.eq_1]
  | cons c s' ih =>
    by_cases hc : c = '_'
    · subst hc
      match s', h with
      | [], h => simp [sepSafe] at h
      | '_' :: r, h => simp [sepSafe] at h
      | d :: r, h =>
        have hd : d ≠ '_' := by
          intro hd; subst hd; simp [sepSafe] at h
        have hs' : sepSafe (d :: r) = true := by
          rw [show sepSafe ('_' :: d :: r) = sepSafe (d :: r) from by
            rw [sepSafe.eq_def]; simp [hd]] at h
          exact h
        have hne : ∀ (r1 : List Char), '_' = '_' → (d :: r) ++ '_' :: '_' :: l = '_' :: r1 → False := by
          intro r1 _ habs
          exact hd (by simpa using congrArg (fun t => t.head?) habs)
        rw [show ('_' :: d :: r) ++ '_' :: '_' :: l = '_' :: ((d :: r) ++ '_' :: '_' :: l) from rfl]
        rw [splitSep.eq_2 _ _ hne, ih hs']
    · have hs' : sepSafe s' = true := by
        cases s' with
        | nil => rfl
        | cons d r =>
          rw [sepSafe.eq_def] at h
          simpa [hc] using h
      have hne : ∀ (r1 : List Char), c = '_' → s' ++ '_' :: '_' :: l = '_' :: r1 → False := by
        intro _ hcc _; exact hc hcc
      rw [show (c :: s') ++ '_' :: '_' :: l = c :: (s' ++ '_' :: '_' :: l) from rfl]
      rw [splitSep.eq_2 _ _ hne, ih hs']

/-- A string without the separator is returned whole by `splitSep`. -/
theorem splitSep_no_sep (t : Str) (h : containsSep t = false) :
    splitSep t = [t] := by
  induction t using splitSep.induct with
  | case1 rest ih => rw [containsSep.eq_1] at h; exact absurd h (by simp)
  | case2 c rest hne hnil ih => exact absurd hnil (splitSep_ne_nil rest)
  | case3 c rest hne p ps hs ih =>
    rw [containsSep.eq_2 c rest hne] at h
    rw [splitSep.eq_2 c rest hne, ih h]
  | case4 => rfl

theorem alookup_aset {B : Type} (k k' : Str) (v : B) (l : List (Str × B)) :
    alookup k (aset k' v l) = if k' = k then some v else alookup k l := by
  induction l with
  | nil => simp [aset, alookup]
  | cons p rest ih =>
    obtain ⟨k₀, v₀⟩ := p
    by_cases h0 : k₀ = k'
    · subst h0
      simp only [aset, if_pos rfl, alookup]
      by_cases hk : k₀ = k
      · simp [hk]
      · simp [hk, alookup]
    · simp only [aset, if_neg h0, alookup]
      by_cases hk : k₀ = k
      · subst hk
        have : ¬ k' = k₀ := fun hh => h0 hh.symm
        simp [this]
      · simp [hk, ih]

theorem alookup_adelete_self {B : Type} (k : Str) (l : List (Str × B)) :
    alookup k (adelete k l) = none := by
  induction l with
  | nil => rfl
  | cons p rest ih =>
    obtain ⟨k₀, v₀⟩ := p
    by_cases h0 : k₀ = k <;>
      simpa [adelete, List.filter_cons, alookup, h0] using ih

theorem alookup_adelete_other {B : Type} (k k' : Str) (l : List (Str × B))
    (h : k' ≠ k) : alookup k' (adelete k l) = alookup k' l := by
  induction l with
  | nil => rfl
  | cons p rest ih =>
    obtain ⟨k₀, v₀⟩ := p
    by_cases h0 : k₀ = k
    · subst h0
      simpa [adelete, List.filter_cons, alookup, Ne.symm h] using ih
    · by_cases hk : k₀ = k'
      · subst hk
        simp [adelete, List.filter_cons, alookup, h0]
      · simpa [adelete, List.filter_cons, alookup, h0, hk] using ih

/-! # Helper lemmas for the claim theorems -/

theorem takeWhile_append_boundary (p : Char → Bool) (xs ys : List Char)
    (c : Char) (hxs : ∀ x ∈ xs, p x = true) (hc : p c = false) :
    (xs ++ c :: ys).takeWhile p = xs := by
  induction xs with
  | nil => simp [List.takeWhile_cons, hc]
  | cons x xt ih =>
    have hx := hxs x (by simp)
    simp only [List.cons_append, List.takeWhile_cons, hx]
    simp [ih (fun y hy => hxs y (by simp [hy]))]

theorem takeWhile_all (p : Char → Bool) (xs : List Char)
    (hxs : ∀ x ∈ xs, p x = true) : xs.takeWhile p = xs := by
  induction xs with
  | nil => rfl
  | cons x xt ih =>
    have hx := hxs x (by simp)
    simp only [List.takeWhile_cons, hx]
    simp [ih (fun y hy => hxs y (by simp [hy]))]

theorem afterLastAt_no_at (s : Str) (h : ∀ c ∈ s, c ≠ '@') :
    afterLastAt s = s := by
  unfold afterLastAt
  rw [takeWhile_all _ _ (by
    intro x hx
    have : x ∈ s := List.mem_reverse.mp hx
    simpa using h x this)]
  exact List.reverse_reverse s

theorem replaceFirst_append (pat rest : Str) (hne : pat ≠ []) :
    replaceFirst pat (pat ++ rest) = rest := by
  match pat, hne with
  | p :: pt, _ =>
    have hpre : (p :: pt).isPrefixOf (p :: (pt ++ rest)) = true := by
      rw [List.isPrefixOf_iff_prefix]
      rw [show p :: (pt ++ rest) = (p :: pt) ++ rest from rfl]
      exact List.prefix_append _ _
    show replaceFirst (p :: pt) (p :: (pt ++ rest)) = rest
    rw [replaceFirst, if_pos hpre]
    rw [show p :: (pt ++ rest) = (p :: pt) ++ rest from rfl]
    simp

/-! # Claim C1 -/

/-- Claim C1, counterexample: the server name `"a_"` contains no `"__"`,
yet encoding it with local name `"x"` and decoding does not recover the
pair — the trailing underscore of the server name merges with the
separator, so the first occurrence of `"__"` sits one position early and
the decoder returns `("a", "_x")`. -/
theorem c1_counterexample :
    containsSep "a_".toList = false ∧
    decodeToolName (encodeToolName "a_".toList "x".toList) ≠
      ("a_".toList, "x".toList) ∧
    decodeToolName (encodeToolName "a_".toList "x".toList) =
      ("a".toList, "_x".toList) := by decide

/-- Claim C1 (amended): for every server name `s` that neither contains
the separator `"__"` nor ends in `'_'`, and every local name `l` —
including `l` containing `"__"` — encoding to `s ++ "__" ++ l` and
decoding by splitting at the first `"__"` recovers exactly `(s, l)`. -/
theorem c1_tool_name_roundtrip (s l : Str) (h : sepSafe s = true) :
    decodeToolName (encodeToolName s l) = (s, l) := by
  unfold decodeToolName encodeToolName
  rw [splitSep_boundary s l h]
  cases hs : splitSep l with
  | nil => exact absurd hs (splitSep_ne_nil l)
  | cons p ps =>
    have hj := joinSep_splitSep l
    rw [hs] at hj
    simp [hj]

/-- Claim C1, witness: a separator-safe server name and a local name that
itself contains the separator round-trip exactly. -/
theorem c1_tool_name_roundtrip_witness :
    sepSafe "serverA".toList = true ∧
    decodeToolName (encodeToolName "serverA".toList "tool__x".toList) =
      ("serverA".toList, "tool__x".toList) :=
  ⟨by decide, c1_tool_name_roundtrip "serverA".toList "tool__x".toList (by decide)⟩

/-! # Claim C5 -/

/-- Claim C5, counterexample: a server name containing `'/'` does not
round-trip — the authority component stops at the first `'/'`, so
`"mcp://a/b/c"` decodes to `("a", "b/c")`, not `("a/b", "c")`. -/
theorem c5_counterexample :
    decodeResourceURI (encodeResourceURI "a/b".toList "c".toList) ≠
      some ("a/b".toList, "c".toList) ∧
    decodeResourceURI (encodeResourceURI "a/b".toList "c".toList) =
      some ("a".toList, "b/c".toList) := by decide

theorem hostSafeChar_auth (c : Char) (h : hostSafeChar c = true) :
    (!authorityEndChar c) = true := by
  simp only [Bool.not_eq_true', authorityEndChar, Bool.or_eq_false_iff,
    decide_eq_false_iff_not]
  refine ⟨⟨?_, ?_⟩, ?_⟩ <;> rintro rfl <;> exact absurd h (by decide)

theorem hostSafeChar_at (c : Char) (h : hostSafeChar c = true) : c ≠ '@' := by
  rintro rfl; exact absurd h (by decide)

theorem parseURLHost_encode (s u : Str) (h : s.all hostSafeChar = true) :
    parseURLHost (encodeResourceURI s u) = some s := by
  have hsc : ∀ c ∈ s, hostSafeChar c = true := by
    intro c hc; exact List.all_eq_true.mp h c hc
  have he : encodeResourceURI s u =
      'm' :: 'c' :: 'p' :: ':' :: '/' :: '/' :: (s ++ '/' :: u) := by
    simp [encodeResourceURI]
  have htw : ('m' :: 'c' :: 'p' :: ':' :: '/' :: '/' :: (s ++ '/' :: u)).takeWhile
      (fun c => c ≠ ':') = ['m', 'c', 'p'] := by
    simp [List.takeWhile_cons]
  have hauth : (s ++ '/' :: u).takeWhile (fun c => !authorityEndChar c) = s :=
    takeWhile_append_boundary _ _ _ _ (fun x hx => hostSafeChar_auth x (hsc x hx))
      (by decide)
  rw [he]
  simp only [parseURLHost, htw]
  norm_num [List.drop, hauth, afterLastAt_no_at s (fun c hc => hostSafeChar_at c (hsc c hc))]
  intro hv
  exact absurd hv (by decide)


/-- Claim C5 (amended): for every server name `s` made of characters the
URL authority parser preserves verbatim (alphanumerics, `'-'`, `'_'`,
`'.'`, `'~'` — in particular every slugified name) and every local
resource URI `u`, encoding to `mcp://<s>/<u>` and decoding by taking the
URI authority as the server name and stripping the `mcp://<s>/` prefix
returns exactly `(s, u)`. -/
theorem c5_resource_uri_roundtrip (s u : Str) (h : s.all hostSafeChar = true) :
    decodeResourceURI (encodeResourceURI s u) = some (s, u) := by
  have hpat : encodeResourceURI s u = ("mcp://".toList ++ s ++ ['/']) ++ u := by
    simp [encodeResourceURI]
  simp only [decodeResourceURI, parseURLHost_encode s u h]
  rw [hpat, replaceFirst_append _ _ (by simp)]

/-- Claim C5, witness: a slug-style server name and a local URI with path
structure round-trip exactly. -/
theorem c5_resource_uri_roundtrip_witness :
    ("server-a".toList.all hostSafeChar = true) ∧
    decodeResourceURI (encodeResourceURI "server-a".toList "notes/todo.txt".toList) =
      some ("server-a".toList, "notes/todo.txt".toList) :=
  ⟨by decide,
   c5_resource_uri_roundtrip "server-a".toList "notes/todo.txt".toList (by decide)⟩

/-! # Claim C9 -/

/-- Claim C9 fails on the code: the JavaScript word class `\w` includes
the underscore and only hyphen runs are collapsed, so `slugify` passes
`"a__b"` through unchanged and `createServer` persists a name that
contains the codec separator `"__"`. -/
theorem c9_slugify_keeps_separator :
    storedServerName "a__b".toList = "a__b".toList ∧
    containsSep (storedServerName "a__b".toList) = true := by decide

/-! # Claim C4 -/

/-- Claim C4: connection caching is idempotent — when `s.id` is not yet
cached and connecting yields client `c`, the first `getChildClient` call
returns `c`, increments the handshake count once and caches the client
under `s.id`; a second call on the resulting state returns the very same
client and leaves the state (including the handshake count) untouched. -/
theorem c4_getChildClient_idempotent {C E : Type}
    (connect : McpServer → Except E C) (st : RouterState C) (s : McpServer)
    (c : C) (hlk : alookup s.id st.childClients = none)
    (hc : connect s = Except.ok c) :
    getChildClient connect st s =
      (Except.ok c,
        { childClients := aset s.id c st.childClients,
          handshakes := st.handshakes + 1 }) ∧
    getChildClient connect
        { childClients := aset s.id c st.childClients,
          handshakes := st.handshakes + 1 } s =
      (Except.ok c,
        { childClients := aset s.id c st.childClients,
          handshakes := st.handshakes + 1 }) := by
  constructor
  · unfold getChildClient
    rw [hlk, hc]
  · unfold getChildClient
    simp [alookup_aset]

/-- Claim C4, witness: with an empty cache and a connect oracle returning
client `7`, the first call performs the single handshake and the second
call returns the cached client with no further handshake. -/
theorem c4_getChildClient_idempotent_witness :
    getChildClient (fun _ : McpServer => (Except.ok 7 : Except Unit Nat))
        ⟨[], 0⟩ sampleServer =
      (Except.ok 7, ⟨aset sampleServer.id 7 [], 0 + 1⟩) ∧
    getChildClient (fun _ : McpServer => (Except.ok 7 : Except Unit Nat))
        ⟨aset sampleServer.id 7 [], 0 + 1⟩ sampleServer =
      (Except.ok 7, ⟨aset sampleServer.id 7 [], 0 + 1⟩) :=
  c4_getChildClient_idempotent (fun _ => Except.ok 7) ⟨[], 0⟩ sampleServer 7
    (by decide) rfl

/-! # Claim C8 -/

/-- Claim C8: a failed connection attempt is not cached — when `s.id` is
not cached and connecting fails, `getChildClient` propagates the error
and leaves `childClients` exactly as it was (only the attempt counter
moves), and a subsequent call for the same definition performs a fresh
connection attempt, succeeding whenever the new attempt succeeds. -/
theorem c8_connect_failure_not_cached {C E : Type}
    (connect : McpServer → Except E C) (st : RouterState C) (s : McpServer)
    (e : E) (hlk : alookup s.id st.childClients = none)
    (hc : connect s = Except.error e) :
    getChildClient connect st s =
      (Except.error e,
        { childClients := st.childClients, handshakes := st.handshakes + 1 }) ∧
    ∀ (connect2 : McpServer → Except E C) (c : C), connect2 s = Except.ok c →
      (getChildClient connect2
        { childClients := st.childClients, handshakes := st.handshakes + 1 } s).1 =
        Except.ok c := by
  constructor
  · unfold getChildClient
    rw [hlk, hc]
  · intro connect2 c hc2
    unfold getChildClient
    rw [show alookup s.id
        (RouterState.mk st.childClients (st.handshakes + 1)).childClients = none
      from hlk, hc2]

/-- Claim C8, witness: a failing connect leaves the empty cache empty,
and a retry with a now-working upstream connects. -/
theorem c8_connect_failure_not_cached_witness :
    getChildClient (fun _ : McpServer => (Except.error 3 : Except Nat Nat))
        ⟨[], 0⟩ sampleServer =
      (Except.error 3, ⟨[], 0 + 1⟩) ∧
    (getChildClient (fun _ : McpServer => (Except.ok 5 : Except Nat Nat))
        ⟨[], 0 + 1⟩ sampleServer).1 = Except.ok 5 :=
  ⟨(c8_connect_failure_not_cached (fun _ => Except.error 3) ⟨[], 0⟩ sampleServer 3
      (by decide) rfl).1,
   (c8_connect_failure_not_cached (fun _ => Except.error 3) ⟨[], 0⟩ sampleServer 3
      (by decide) rfl).2 (fun _ => Except.ok 5) 5 rfl⟩

/-! # Claim C3 -/

/-- Claim C3: when the decoded server-name segment of a call-tool request
matches no enabled definition — the name is unknown, or the definition
exists but is disabled and hence filtered out of the active set — the
handler fails with the `Server <name> not found or inactive` definition
error and returns the router state completely unchanged: the connection
cache is untouched and the handshake counter shows no connection
attempt. -/
theorem c3_call_tool_unknown_or_inactive {C S E U A R : Type}
    (rows : List McpServer) (connect : McpServer → Except E C)
    (callUp : McpServer → Str → A → Except U R) (st : RouterState C)
    (name : Str) (args : A)
    (h : ∀ r ∈ rows, r.is_active = true → r.name ≠ (decodeToolName name).1) :
    callToolHandler (S := S) (Except.ok rows) connect callUp st name args =
      (Except.error (RouterError.definitionError
        ("Server ".toList ++ (decodeToolName name).1 ++
          " not found or inactive".toList)), st) := by
  unfold callToolHandler getActiveServers
  have hf : (rows.filter (fun r => r.is_active)).find?
      (fun s => s.name = (decodeToolName name).1) = none := by
    rw [List.find?_eq_none]
    intro x hx
    have hmem := List.mem_filter.mp hx
    have := h x hmem.1 (by simpa using hmem.2)
    simpa using this
  simp only [hf]

/-- Claim C3, witness: `serverX` exists but is disabled; calling
`serverX__doSomething` yields the definition error and leaves the state
untouched. -/
theorem c3_call_tool_unknown_or_inactive_witness :
    callToolHandler (C := Nat) (S := Unit) (E := Unit) (U := Unit)
        (Except.ok [sampleServerX]) (fun _ => Except.error ())
        (fun _ _ (_ : Unit) => (Except.error () : Except Unit Unit))
        ⟨[], 0⟩ "serverX__doSomething".toList () =
      (Except.error (RouterError.definitionError
        "Server serverX not found or inactive".toList), ⟨[], 0⟩) :=
  (c3_call_tool_unknown_or_inactive [sampleServerX] (fun _ => Except.error ())
      (fun _ _ _ => Except.error ()) ⟨[], 0⟩ "serverX__doSomething".toList ()
      (by decide)).trans rfl

/-! # Claim C7 -/

/-- Claim C7: removing a session's entry from the Session Registry on
stream close makes a subsequent post for that session id fail with
session-not-found, while posts for any other session id behave exactly as
before the close. -/
theorem c7_session_close_removes_entry {T : Type} (reg : List (Str × T))
    (sid : Str) :
    postMessage (closeSession reg sid) (some sid) =
      PostResponse.sessionNotFound ∧
    ∀ sid' : Str, sid' ≠ sid →
      postMessage (closeSession reg sid) (some sid') =
        postMessage reg (some sid') := by
  constructor
  · have h := alookup_adelete_self (B := T) sid reg
    simp only [postMessage, closeSession, h]
  · intro sid' hne
    have h := alookup_adelete_other (B := T) sid sid' reg hne
    simp only [postMessage, closeSession, h]

/-- Claim C7, witness: with sessions `s1` and `s2` open, closing `s1`
makes posting to `s1` fail with session-not-found while `s2` still
accepts. -/
theorem c7_session_close_removes_entry_witness :
    postMessage (closeSession [("s1".toList, 0), ("s2".toList, 1)] "s1".toList)
      (some "s1".toList) = PostResponse.sessionNotFound ∧
    postMessage (closeSession [("s1".toList, 0), ("s2".toList, 1)] "s1".toList)
      (some "s2".toList) = PostResponse.accepted :=
  ⟨(c7_session_close_removes_entry [("s1".toList, 0), ("s2".toList, 1)]
      "s1".toList).1,
   ((c7_session_close_removes_entry [("s1".toList, 0), ("s2".toList, 1)]
      "s1".toList).2 "s2".toList (by decide)).trans (by decide)⟩

/-! # Claim C10 -/

/-- Claim C10: when the store query for enabled definitions itself fails,
each of the six aggregator operations fails as a whole: the three list
handlers and the call-tool / get-prompt handlers propagate the store
error verbatim (no partial result), and read-resource propagates it for
every URI that survives URL parsing — a URI that does not parse fails
wholesale too, with the parse error thrown even before the store is
consulted. -/
theorem c10_store_failure_propagates {C S E U A R : Type} (e : S)
    (connect : McpServer → Except E C)
    (toolsUp : McpServer → Except U (List Tool))
    (resourcesUp : McpServer → Except U (List ResourceItem))
    (promptsUp : McpServer → Except U (List Prompt))
    (callUp : McpServer → Str → A → Except U R)
    (promptUp : McpServer → Str → A → Except U R)
    (readUp : McpServer → Str → Except U R)
    (st : RouterState C) :
    ((listToolsHandler (Except.error e) connect toolsUp st).1 =
        Except.error (RouterError.storeError e)) ∧
    ((listResourcesHandler (Except.error e) connect resourcesUp st).1 =
        Except.error (RouterError.storeError e)) ∧
    ((listPromptsHandler (Except.error e) connect promptsUp st).1 =
        Except.error (RouterError.storeError e)) ∧
    (∀ (name : Str) (args : A),
      (callToolHandler (Except.error e) connect callUp st name args).1 =
        Except.error (RouterError.storeError e)) ∧
    (∀ (name : Str) (args : A),
      (getPromptHandler (Except.error e) connect promptUp st name args).1 =
        Except.error (RouterError.storeError e)) ∧
    (∀ uri : Str,
      (readResourceHandler (Except.error e) connect readUp st uri).1 =
        Except.error (match parseURLHost uri with
          | none => RouterError.uriParseError
          | some _ => RouterError.storeError e)) := by
  refine ⟨rfl, rfl, rfl, fun name args => rfl, fun name args => rfl,
    fun uri => ?_⟩
  unfold readResourceHandler
  cases parseURLHost uri <;> rfl

/-! # Claim C2 -/

/-- For a cache not yet holding any of the active servers (pairwise
distinct by id), the ListTools loop produces exactly the concatenation of
the per-upstream contributions. -/
theorem listToolsLoop_flatMap {C E U : Type}
    (connect : McpServer → Except E C) (up : McpServer → Except U (List Tool))
    (active : List McpServer) (st : RouterState C)
    (hfresh : ∀ s ∈ active, alookup s.id st.childClients = none)
    (hnodup : (active.map McpServer.id).Nodup) :
    (listToolsLoop connect up active st).1 =
      active.flatMap (upstreamToolsResult connect up) := by
  induction active generalizing st with
  | nil => rfl
  | cons s rest ih =>
    have hlk : alookup s.id st.childClients = none := hfresh s (by simp)
    have hni : s.id ∉ rest.map McpServer.id := by
      rw [List.map_cons, List.nodup_cons] at hnodup
      exact hnodup.1
    have hnd : (rest.map McpServer.id).Nodup := by
      rw [List.map_cons, List.nodup_cons] at hnodup
      exact hnodup.2
    rw [listToolsLoop.eq_2, List.flatMap_cons]
    unfold getChildClient
    rw [hlk]
    cases hc : connect s with
    | error e =>
      have hfr : ∀ x ∈ rest,
          alookup x.id (RouterState.mk st.childClients (st.handshakes + 1)).childClients = none :=
        fun x hx => hfresh x (by simp [hx])
      simp only [upstreamToolsResult, hc]
      rw [ih _ hfr hnd]
      simp
    | ok c =>
      have hfr : ∀ x ∈ rest, alookup x.id
          (RouterState.mk (aset s.id c st.childClients)
            (st.handshakes + 1)).childClients = none := by
        intro x hx
        show alookup x.id (aset s.id c st.childClients) = none
        rw [alookup_aset]
        have hxid : s.id ≠ x.id := by
          intro hh
          exact hni (hh ▸ List.mem_map_of_mem McpServer.id hx)
        rw [if_neg hxid]
        exact hfresh x (by simp [hx])
      cases hu : up s with
      | error e =>
        simp only [upstreamToolsResult, hc, hu]
        rw [ih _ hfr hnd]
        simp
      | ok ts =>
        simp only [upstreamToolsResult, hc, hu]
        rw [← ih _ hfr hnd]

/-- Claim C2: over any enabled set whose servers are pairwise distinct by
id and not yet cached, the ListTools aggregation returns `Except.ok` of
exactly the concatenation, in store order, of the re-namespaced tool
lists of the succeeding upstreams — an upstream whose connection or
listing fails contributes nothing and does not fail the call. -/
theorem c2_list_tools_partial_results {C S E U : Type}
    (rows : List McpServer) (connect : McpServer → Except E C)
    (up : McpServer → Except U (List Tool)) (st : RouterState C)
    (hfresh : ∀ s ∈ rows.filter (fun r => r.is_active),
        alookup s.id st.childClients = none)
    (hnodup : ((rows.filter (fun r => r.is_active)).map McpServer.id).Nodup) :
    (listToolsHandler (S := S) (Except.ok rows) connect up st).1 =
      Except.ok ((rows.filter (fun r => r.is_active)).flatMap
        (upstreamToolsResult connect up)) := by
  simp only [listToolsHandler, getActiveServers]
  rw [listToolsLoop_flatMap connect up _ st hfresh hnodup]

/-- Claim C2, witness: one healthy server `serverA` returning tools `a`
and `b` and one failing server `serverB`: the aggregation still succeeds,
with exactly `serverA__a` and `serverA__b`. -/
theorem c2_list_tools_partial_results_witness :
    (listToolsHandler (S := Unit) (Except.ok [sampleServer, sampleServerB])
        (fun s => if s.id = sampleServer.id then Except.ok 1
          else (Except.error 0 : Except Nat Nat))
        (fun s => if s.id = sampleServer.id then
            Except.ok [Tool.mk "a".toList "ta".toList,
                       Tool.mk "b".toList "tb".toList]
          else Except.error 0)
        ⟨[], 0⟩).1 =
      Except.ok [Tool.mk "serverA__a".toList "[serverA] ta".toList,
                 Tool.mk "serverA__b".toList "[serverA] tb".toList] :=
  (c2_list_tools_partial_results [sampleServer, sampleServerB]
      (fun s => if s.id = sampleServer.id then Except.ok 1 else Except.error 0)
      (fun s => if s.id = sampleServer.id then
          Except.ok [Tool.mk "a".toList "ta".toList,
                     Tool.mk "b".toList "tb".toList]
        else Except.error 0)
      ⟨[], 0⟩ (by decide) (by decide)).trans rfl

/-! # Claim C6 -/

/-- An identifier without the separator decodes to itself with an empty
local name. -/
theorem decodeToolName_no_sep (name : Str) (h : containsSep name = false) :
    decodeToolName name = (name, []) := by
  unfold decodeToolName
  rw [splitSep_no_sep name h]
  rfl

/-- Claim C6, counterexample: `"foo"` contains no separator and is not a
well-formed URI; the read-resource handler fails with the URL parse error
(the `TypeError` thrown by `new URL` before anything else runs), which is
a different error class from every definition error — so decode errors
are not all unified into the definition-error path. -/
theorem c6_counterexample :
    (readResourceHandler (C := Nat) (S := Unit) (E := Unit) (U := Unit)
        (Except.ok []) (fun _ => Except.error ())
        (fun _ _ => (Except.error () : Except Unit Unit))
        ⟨[], 0⟩ "foo".toList).1 = Except.error RouterError.uriParseError ∧
    ∀ msg : Str, (RouterError.uriParseError : RouterError Unit Unit Unit) ≠
      RouterError.definitionError msg := by
  refine ⟨rfl, ?_⟩
  intro msg h
  exact RouterError.noConfusion h

/-- Claim C6 (amended): for call-tool and get-prompt, an identifier
without the separator is decoded as the whole identifier with an empty
local name and, when no enabled definition bears that name, both handlers
fail with the same definition-error class as an unknown or disabled
server, the state untouched; read-resource likewise funnels a parseable
URI whose host matches no enabled definition into that definition-error
class — but an identifier that fails URL parsing altogether takes the URL
constructor's distinct error path (see the counterexample). -/
theorem c6_decode_errors_unified {C S E U A R : Type}
    (rows : List McpServer) (connect : McpServer → Except E C)
    (callUp : McpServer → Str → A → Except U R)
    (promptUp : McpServer → Str → A → Except U R)
    (readUp : McpServer → Str → Except U R)
    (st : RouterState C) (name : Str) (args : A) (uri sn : Str)
    (hsep : containsSep name = false)
    (hname : ∀ r ∈ rows, r.is_active = true → r.name ≠ name)
    (hparse : parseURLHost uri = some sn)
    (hsn : ∀ r ∈ rows, r.is_active = true → r.name ≠ sn) :
    callToolHandler (S := S) (Except.ok rows) connect callUp st name args =
      (Except.error (RouterError.definitionError
        ("Server ".toList ++ name ++ " not found or inactive".toList)), st) ∧
    getPromptHandler (S := S) (Except.ok rows) connect promptUp st name args =
      (Except.error (RouterError.definitionError
        ("Server ".toList ++ name ++ " not found".toList)), st) ∧
    readResourceHandler (S := S) (Except.ok rows) connect readUp st uri =
      (Except.error (RouterError.definitionError
        ("Server ".toList ++ sn ++ " not found".toList)), st) := by
  have hdec : decodeToolName name = (name, []) := decodeToolName_no_sep name hsep
  have hfind : (rows.filter (fun r => r.is_active)).find?
      (fun s => s.name = name) = none := by
    rw [List.find?_eq_none]
    intro x hx
    have hmem := List.mem_filter.mp hx
    simpa using hname x hmem.1 (by simpa using hmem.2)
  have hfind2 : (rows.filter (fun r => r.is_active)).find?
      (fun s => s.name = sn) = none := by
    rw [List.find?_eq_none]
    intro x hx
    have hmem := List.mem_filter.mp hx
    simpa using hsn x hmem.1 (by simpa using hmem.2)
  refine ⟨?_, ?_, ?_⟩
  · simp only [callToolHandler, getActiveServers, hdec, hfind]
  · simp only [getPromptHandler, getActiveServers, hdec, hfind]
  · simp only [readResourceHandler, getActiveServers, hparse, hfind2]

/-- Claim C6, witness: the separator-free identifier `serverY` and the
parseable URI `mcp://serverZ/x`, with only the disabled `serverX`
configured, both fail with the definition-error class. -/
theorem c6_decode_errors_unified_witness :
    callToolHandler (C := Nat) (S := Unit) (E := Unit) (U := Unit)
        (Except.ok [sampleServerX]) (fun _ => Except.error ())
        (fun _ _ (_ : Unit) => (Except.error () : Except Unit Unit)) ⟨[], 0⟩
        "serverY".toList () =
      (Except.error (RouterError.definitionError
        "Server serverY not found or inactive".toList), ⟨[], 0⟩) ∧
    readResourceHandler (C := Nat) (S := Unit) (E := Unit) (U := Unit)
        (Except.ok [sampleServerX]) (fun _ => Except.error ())
        (fun _ _ => (Except.error () : Except Unit Unit)) ⟨[], 0⟩
        "mcp://serverZ/x".toList =
      (Except.error (RouterError.definitionError
        "Server serverZ not found".toList), ⟨[], 0⟩) :=
  ⟨((c6_decode_errors_unified [sampleServerX] (fun _ => Except.error ())
      (fun _ _ _ => Except.error ()) (fun _ _ _ => Except.error ())
      (fun _ _ => Except.error ()) ⟨[], 0⟩ "serverY".toList ()
      "mcp://serverZ/x".toList "serverZ".toList (by decide) (by decide)
      (by decide) (by decide)).1).trans rfl,
   ((c6_decode_errors_unified [sampleServerX] (fun _ => Except.error ())
      (fun _ _ _ => Except.error ()) (fun _ _ _ => Except.error ())
      (fun _ _ => Except.error ()) ⟨[], 0⟩ "serverY".toList ()
      "mcp://serverZ/x".toList "serverZ".toList (by decide) (by decide)
      (by decide) (by decide)).2.2).trans rfl⟩
